import Mathlib

/-!
Verification of the clustered replication core (SQLiteNode) against its
specification.  The data model and operations below are a shallow embedding
of the repository's source (src/sqlitecluster/SQLiteNode.h and the spec for
implementation bodies that the repository only declares).
-/

namespace SQLiteNode

/-- Possible states of a node in a DB cluster (enum State in SQLiteNode.h,
lines 60-70). -/
inductive State where
  | UNKNOWN
  | SEARCHING
  | SYNCHRONIZING
  | WAITING
  | STANDINGUP
  | LEADING
  | STANDINGDOWN
  | SUBSCRIBING
  | FOLLOWING
deriving DecidableEq, Repr

/-- Write consistencies available (enum ConsistencyLevel in SQLiteNode.h,
lines 178-183; NUM_CONSISTENCY_LEVELS is a count, not a level). -/
inductive ConsistencyLevel where
  | ASYNC
  | ONE
  | QUORUM
deriving DecidableEq, Repr

/-- The possible states a transaction can be in (enum class CommitState in
SQLiteNode.h, lines 187-193). -/
inductive CommitState where
  | UNINITIALIZED
  | WAITING
  | COMMITTING
  | SUCCESS
  | FAILED
deriving DecidableEq, Repr

/-- Embeds SQLiteNode::commitInProgress (SQLiteNode.h line 215):
return (_commitState == CommitState::WAITING || _commitState == CommitState::COMMITTING). -/
def commitInProgress (commitState : CommitState) : Bool :=
  commitState == CommitState.WAITING || commitState == CommitState.COMMITTING

/-- Embeds SQLiteNode::commitSucceeded (SQLiteNode.h line 219):
return _commitState == CommitState::SUCCESS. -/
def commitSucceeded (commitState : CommitState) : Bool :=
  commitState == CommitState.SUCCESS

/-- All values of the State enum, in declaration order. -/
def stateList : List State :=
  [State.UNKNOWN, State.SEARCHING, State.SYNCHRONIZING, State.WAITING,
   State.STANDINGUP, State.LEADING, State.STANDINGDOWN, State.SUBSCRIBING,
   State.FOLLOWING]

/-- The lifecycle states: every State value other than the UNKNOWN sentinel. -/
def lifecycleStates : List State :=
  [State.SEARCHING, State.SYNCHRONIZING, State.WAITING, State.STANDINGUP,
   State.LEADING, State.STANDINGDOWN, State.SUBSCRIBING, State.FOLLOWING]

end SQLiteNode

/-- Result of a wait on the sequential notifier (spec 4.A: waitFor returns
one of COMPLETED, CANCELLED). -/
inductive WaitResult where
  | COMPLETED
  | CANCELLED
deriving DecidableEq, Repr

/-- Modelled from the spec: the repository declares SQLiteSequentialNotifier
(included from sqlitecluster/SQLiteSequentialNotifier.h, used at
SQLiteNode.h lines 415-416) but its implementation is not under src/.
Spec 4.A: a rendezvous primitive over integer tickets with a completed
ceiling, individually cancelled tickets, and a cancelled-after bound. -/
structure SQLiteSequentialNotifier where
  /-- Greatest ticket marked completed (notifyThrough ceiling); 0 = none. -/
  value : Nat
  /-- Tickets individually cancelled via cancel(n). -/
  cancelled : List Nat
  /-- cancelAfter(m) bound: all tickets > m are cancelled. -/
  cancelledAfter : Option Nat
deriving DecidableEq, Repr

namespace SQLiteSequentialNotifier

/-- A fresh notifier: nothing completed, nothing cancelled. -/
def init : SQLiteSequentialNotifier := ⟨0, [], none⟩

/-- Modelled from the spec (4.A): notifyThrough(n) marks all tickets ≤ n as
completed, so the completed ceiling becomes at least n. -/
def notifyThrough (s : SQLiteSequentialNotifier) (n : Nat) : SQLiteSequentialNotifier :=
  { s with value := max s.value n }

/-- Modelled from the spec (4.A): cancel(n) marks a specific ticket cancelled. -/
def cancel (s : SQLiteSequentialNotifier) (n : Nat) : SQLiteSequentialNotifier :=
  { s with cancelled := n :: s.cancelled }

/-- Modelled from the spec (4.A): cancelAfter(m) marks all tickets > m
cancelled. -/
def cancelAfter (s : SQLiteSequentialNotifier) (m : Nat) : SQLiteSequentialNotifier :=
  { s with cancelledAfter := some m }

/-- Modelled from the spec (4.A): waitFor(n) blocks until n is completed or
cancelled.  The immediate (non-blocking) outcome: some COMPLETED when the
ticket is within the completed ceiling (spec guarantee: once notifyThrough(n)
is called, all waits on ≤ n complete immediately), some CANCELLED when the
ticket is cancelled, none when the call would block. -/
def waitFor (s : SQLiteSequentialNotifier) (n : Nat) : Option WaitResult :=
  if n ≤ s.value then some WaitResult.COMPLETED
  else if n ∈ s.cancelled then some WaitResult.CANCELLED
  else match s.cancelledAfter with
    | some m => if m < n then some WaitResult.CANCELLED else none
    | none => none

/-- The notifier's mutating operations, for quantifying over call sequences. -/
inductive Op where
  | notifyThrough (n : Nat)
  | cancel (n : Nat)
  | cancelAfter (m : Nat)
deriving DecidableEq, Repr

/-- Apply one mutating operation. -/
def applyOp (s : SQLiteSequentialNotifier) : Op → SQLiteSequentialNotifier
  | Op.notifyThrough n => s.notifyThrough n
  | Op.cancel n => s.cancel n
  | Op.cancelAfter m => s.cancelAfter m

/-- Apply a sequence of mutating operations, first element first. -/
def applyOps (s : SQLiteSequentialNotifier) : List Op → SQLiteSequentialNotifier
  | [] => s
  | op :: ops => applyOps (s.applyOp op) ops

end SQLiteSequentialNotifier

open SQLiteNode

/-- No operation ever lowers the completed ceiling. -/
theorem SQLiteSequentialNotifier.value_le_applyOp
    (s : SQLiteSequentialNotifier) (op : SQLiteSequentialNotifier.Op) :
    s.value ≤ (s.applyOp op).value := by
  cases op <;>
    simp [SQLiteSequentialNotifier.applyOp, SQLiteSequentialNotifier.notifyThrough,
      SQLiteSequentialNotifier.cancel, SQLiteSequentialNotifier.cancelAfter]

/-- The completed ceiling is monotone along any operation sequence. -/
theorem SQLiteSequentialNotifier.value_le_applyOps
    (s : SQLiteSequentialNotifier) (ops : List SQLiteSequentialNotifier.Op) :
    s.value ≤ (s.applyOps ops).value := by
  induction ops generalizing s with
  | nil => exact Nat.le_refl _
  | cons op ops ih =>
      exact Nat.le_trans (SQLiteSequentialNotifier.value_le_applyOp s op) (ih (s.applyOp op))

/-- C3: commitInProgress() returns true if and only if the commit state is
WAITING or COMMITTING; in every other commit state it returns false. -/
theorem commitInProgress_iff (s : CommitState) :
    commitInProgress s = true ↔ (s = CommitState.WAITING ∨ s = CommitState.COMMITTING) := by
  cases s <;> simp [commitInProgress]

/-- C9: commitSucceeded() and commitInProgress() are never both true, and
commitSucceeded() holds exactly in commit state SUCCESS. -/
theorem commitSucceeded_commitInProgress_exclusive (s : CommitState) :
    (commitInProgress s && commitSucceeded s) = false ∧
      (commitSucceeded s = true ↔ s = CommitState.SUCCESS) := by
  cases s <;> simp [commitInProgress, commitSucceeded]

/-- C8: every node state is one of the nine enum values
UNKNOWN, SEARCHING, SYNCHRONIZING, WAITING, STANDINGUP, LEADING,
STANDINGDOWN, SUBSCRIBING, FOLLOWING; the lifecycle states (all but the
UNKNOWN sentinel) number exactly eight. -/
theorem state_in_lifecycle_set :
    (∀ s : State, s ∈ stateList) ∧
      stateList = State.UNKNOWN :: lifecycleStates ∧
      lifecycleStates.length = 8 ∧ stateList.Nodup := by
  refine ⟨fun s => ?_, rfl, rfl, by decide⟩
  cases s <;> simp [stateList, lifecycleStates]

/-- C5: once notifyThrough(n) has been called, any subsequent waitFor(k) with
k ≤ n returns COMPLETED immediately (without blocking), for every sequence of
further notifier operations in between: completion is monotone in the ticket
number. -/
theorem notifyThrough_waitFor_completed
    (s : SQLiteSequentialNotifier) (n k : Nat)
    (ops : List SQLiteSequentialNotifier.Op) (hk : k ≤ n) :
    ((s.notifyThrough n).applyOps ops).waitFor k = some WaitResult.COMPLETED := by
  have h1 : n ≤ (s.notifyThrough n).value := by
    simp [SQLiteSequentialNotifier.notifyThrough]
  have h2 : (s.notifyThrough n).value ≤ ((s.notifyThrough n).applyOps ops).value :=
    SQLiteSequentialNotifier.value_le_applyOps _ ops
  have : k ≤ ((s.notifyThrough n).applyOps ops).value :=
    Nat.le_trans hk (Nat.le_trans h1 h2)
  simp [SQLiteSequentialNotifier.waitFor, this]

/-- Witness for C5 at a concrete instance: after notifyThrough(5), a cancel of
ticket 3 and a cancelAfter(1), waitFor(3) still returns COMPLETED. -/
theorem notifyThrough_waitFor_completed_witness :
    (3 ≤ 5) ∧
      ((SQLiteSequentialNotifier.init.notifyThrough 5).applyOps
          [SQLiteSequentialNotifier.Op.cancel 3,
           SQLiteSequentialNotifier.Op.cancelAfter 1]).waitFor 3 =
        some WaitResult.COMPLETED :=
  ⟨by decide, notifyThrough_waitFor_completed SQLiteSequentialNotifier.init 5 3
    [SQLiteSequentialNotifier.Op.cancel 3, SQLiteSequentialNotifier.Op.cancelAfter 1]
    (by decide)⟩

/-- Modelled from the spec: SQLiteNode::replicate (declared at SQLiteNode.h
line 433) has no body under src/.  Spec 4.F follower side: the follower's
observable replication state, for a follower subscribed at commit 0:
the notifier for locally committed transactions (_localCommitNotifier),
the notifier fed by the leader's COMMIT_TRANSACTION messages
(_leaderCommitNotifier), and the follower DB's commit log, recorded as the
list of ticket ids (NewCount values) in the order they were committed. -/
structure FollowerReplication where
  localCommitNotifier : SQLiteSequentialNotifier
  leaderCommitNotifier : SQLiteSequentialNotifier
  /-- Ticket ids committed on the follower DB, in commit order. -/
  committedLog : List Nat
deriving DecidableEq, Repr

namespace FollowerReplication

/-- A fresh follower subscribed at commit 0: nothing committed yet. -/
def init : FollowerReplication :=
  ⟨SQLiteSequentialNotifier.init, SQLiteSequentialNotifier.init, []⟩

/-- Events observable in the replication pipeline on a follower (spec 4.F).
Replication workers run in parallel, so events of distinct workers interleave
arbitrarily; only the events that touch the shared state appear here. -/
inductive Event where
  /-- The leader's COMMIT_TRANSACTION for commit index n arrives:
  _leaderCommitNotifier.notifyThrough(n). -/
  | leaderCommit (n : Nat)
  /-- ROLLBACK_TRANSACTION for ticket k arrives: _localCommitNotifier.cancel(k)
  and the worker for k abandons that transaction. -/
  | rollback (k : Nat)
  /-- The worker for ticket k reaches its commit (spec 4.F worker steps 4-7):
  it may do so only after waitFor(k) on the leader notifier and waitFor(k-1)
  on the local notifier both returned COMPLETED; it then commits ticket k on
  the follower DB and calls _localCommitNotifier.notifyThrough(k). -/
  | workerCommit (k : Nat)
deriving DecidableEq, Repr

/-- One replication event; none when the event's guard does not hold (the
worker would still be blocked in waitFor, or the ticket is already
committed). -/
def step (s : FollowerReplication) : Event → Option FollowerReplication
  | Event.leaderCommit n =>
      some { s with leaderCommitNotifier := s.leaderCommitNotifier.notifyThrough n }
  | Event.rollback k =>
      some { s with localCommitNotifier := s.localCommitNotifier.cancel k }
  | Event.workerCommit k =>
      if 0 < k ∧ k ∉ s.committedLog ∧
          s.leaderCommitNotifier.waitFor k = some WaitResult.COMPLETED ∧
          s.localCommitNotifier.waitFor (k - 1) = some WaitResult.COMPLETED then
        some { s with
          committedLog := s.committedLog ++ [k],
          localCommitNotifier := s.localCommitNotifier.notifyThrough k }
      else none

/-- Run a sequence of replication events, first element first; none when some
event's guard fails. -/
def run (s : FollowerReplication) : List Event → Option FollowerReplication
  | [] => some s
  | ev :: evs => match s.step ev with
    | some t => run t evs
    | none => none

/-- The reachability invariant: the follower's commit log is exactly the
contiguous ticket range 1..localCommitNotifier.value, in that order. -/
def Inv (s : FollowerReplication) : Prop :=
  s.committedLog = List.range' 1 s.localCommitNotifier.value

end FollowerReplication

/-- A wait on the notifier reports COMPLETED exactly when the ticket is within
the completed ceiling. -/
theorem SQLiteSequentialNotifier.waitFor_eq_completed_iff
    (s : SQLiteSequentialNotifier) (n : Nat) :
    s.waitFor n = some WaitResult.COMPLETED ↔ n ≤ s.value := by
  unfold SQLiteSequentialNotifier.waitFor
  by_cases h : n ≤ s.value
  · simp [h]
  · simp only [if_neg h, h, iff_false]
    by_cases hm : n ∈ s.cancelled
    · simp [hm]
    · simp only [if_neg hm]
      cases s.cancelledAfter with
      | none => simp
      | some m => by_cases hmn : m < n <;> simp [hmn]

/-- Consecutive entries of a unit-step range differ by exactly one. -/
theorem chain'_succ_range' (n s : Nat) :
    List.Chain' (fun a b => b = a + 1) (List.range' s n) := by
  induction n generalizing s with
  | zero => simp
  | succ n ih =>
      rw [List.range'_succ]
      cases n with
      | zero => simp
      | succ m =>
          rw [List.range'_succ]
          exact List.Chain'.cons rfl (by rw [← List.range'_succ]; exact ih (s + 1))

/-- Every replication event preserves the commit-log invariant: in particular
a worker may commit ticket k only when the local notifier has completed k-1,
which forces k to be exactly the next commit index. -/
theorem FollowerReplication.step_preserves_inv
    (s t : FollowerReplication) (ev : FollowerReplication.Event)
    (hinv : s.Inv) (hstep : s.step ev = some t) : t.Inv := by
  cases ev with
  | leaderCommit n =>
      simp only [FollowerReplication.step] at hstep
      cases hstep
      simpa [FollowerReplication.Inv] using hinv
  | rollback k =>
      simp only [FollowerReplication.step] at hstep
      cases hstep
      simpa [FollowerReplication.Inv, SQLiteSequentialNotifier.cancel] using hinv
  | workerCommit k =>
      simp only [FollowerReplication.step] at hstep
      split at hstep
      case isFalse => cases hstep
      case isTrue hguard =>
        obtain ⟨hk, hnot, _, hlocal⟩ := hguard
        cases hstep
        have hle : k - 1 ≤ s.localCommitNotifier.value :=
          (SQLiteSequentialNotifier.waitFor_eq_completed_iff _ _).mp hlocal
        rw [FollowerReplication.Inv] at hinv
        have hgt : s.localCommitNotifier.value < k := by
          rcases Nat.lt_or_ge s.localCommitNotifier.value k with h | h
          · exact h
          · exact absurd (List.mem_range'_1.mpr ⟨hk, by omega⟩) (hinv ▸ hnot)
        have hkeq : k = s.localCommitNotifier.value + 1 := by omega
        rw [FollowerReplication.Inv]
        simp only [SQLiteSequentialNotifier.notifyThrough]
        rw [hinv, hkeq, Nat.max_eq_right (Nat.le_succ _), List.range'_1_concat,
          Nat.add_comm 1 s.localCommitNotifier.value]

/-- The commit-log invariant holds along every run from an invariant state. -/
theorem FollowerReplication.run_inv
    (evs : List FollowerReplication.Event) (s t : FollowerReplication)
    (hinv : s.Inv) (hrun : s.run evs = some t) : t.Inv := by
  induction evs generalizing s with
  | nil =>
      simp only [FollowerReplication.run, Option.some.injEq] at hrun
      exact hrun ▸ hinv
  | cons ev evs ih =>
      simp only [FollowerReplication.run] at hrun
      cases hst : s.step ev with
      | none => rw [hst] at hrun; cases hrun
      | some u =>
          rw [hst] at hrun
          exact ih u (FollowerReplication.step_preserves_inv s u ev hinv hst) hrun

/-- C1: on a follower, local commits are applied in strictly increasing commit
index with no gaps, matching the leader's total order: along every event
interleaving of the parallel replication workers (a worker for ticket k
commits only after the workers for all tickets below k have committed), the
follower's commit log is exactly the contiguous range 1..n of leader commit
indices, in increasing order with consecutive entries differing by one. -/
theorem follower_commits_strictly_increasing_no_gaps
    (evs : List FollowerReplication.Event) (s : FollowerReplication)
    (hrun : FollowerReplication.init.run evs = some s) :
    s.committedLog = List.range' 1 s.localCommitNotifier.value ∧
      s.committedLog.Pairwise (fun a b => a < b) ∧
      List.Chain' (fun a b => b = a + 1) s.committedLog := by
  have hinv : s.Inv :=
    FollowerReplication.run_inv evs _ s
      (by simp [FollowerReplication.Inv, FollowerReplication.init,
        SQLiteSequentialNotifier.init]) hrun
  refine ⟨hinv, ?_, ?_⟩
  · rw [hinv]; exact List.pairwise_lt_range' 1 _
  · rw [hinv]; exact chain'_succ_range' _ 1

/-- Witness for C1 at a concrete run: the leader announces commits through 2,
then workers for tickets 1 and 2 commit; the follower's log is [1, 2]. -/
theorem follower_commits_strictly_increasing_no_gaps_witness :
    FollowerReplication.init.run
        [FollowerReplication.Event.leaderCommit 2,
         FollowerReplication.Event.workerCommit 1,
         FollowerReplication.Event.workerCommit 2] =
      some ⟨⟨2, [], none⟩, ⟨2, [], none⟩, [1, 2]⟩ ∧
      ([1, 2] = List.range' 1 2 ∧
        ([1, 2] : List Nat).Pairwise (fun a b => a < b) ∧
        List.Chain' (fun a b => b = a + 1) [1, 2]) := by
  have h : FollowerReplication.init.run
      [FollowerReplication.Event.leaderCommit 2,
       FollowerReplication.Event.workerCommit 1,
       FollowerReplication.Event.workerCommit 2] =
      some ⟨⟨2, [], none⟩, ⟨2, [], none⟩, [1, 2]⟩ := by decide
  exact ⟨h, follower_commits_strictly_increasing_no_gaps _ _ h⟩

/-- Broadcast messages of the leader-side commit protocol (spec 4.F, 6). -/
inductive BroadcastMsg where
  | BEGIN_TRANSACTION
  | COMMIT_TRANSACTION
  | ROLLBACK_TRANSACTION
deriving DecidableEq, Repr

/-- Modelled from the spec: the bodies of SQLiteNode::startCommit,
SQLiteNode::hasQuorum and the approval tallying in update() (declared at
SQLiteNode.h lines 223, 239, 246) are not under src/.  Spec 4.F leader side
and 7: the leader-visible state of the in-flight commit. -/
structure LeaderNode where
  /-- The node's cluster state (_state). -/
  state : State
  /-- The in-flight commit's state (_commitState). -/
  commitState : CommitState
  /-- The write consistency requested for the in-progress commit
  (_commitConsistency). -/
  commitConsistency : ConsistencyLevel
  /-- Count of APPROVE_TRANSACTION responses received from non-permafollower
  followers for the in-flight transaction. -/
  approvals : Nat
  /-- Count of APPROVE_TRANSACTION responses received from permafollower
  followers (they never count toward quorum). -/
  permaApprovals : Nat
  /-- N: the number of non-permafollower peers of this leader. -/
  nonPermaPeerCount : Nat
  /-- Messages broadcast so far for the in-flight transaction, newest first. -/
  sent : List BroadcastMsg
deriving DecidableEq, Repr

namespace LeaderNode

/-- Modelled from the spec (4.F step 7 and glossary): the quorum rule for a
QUORUM commit: the APPROVEs from non-permafollower followers, counting self
as an implicit APPROVE, reach the ceiling of (N+1)/2, written (N+2)/2 in
truncating natural division. -/
def quorumApproved (n : LeaderNode) : Bool :=
  n.approvals + 1 ≥ (n.nonPermaPeerCount + 2) / 2

/-- Modelled from the spec (4.F steps 5-7): whether the requested consistency
level allows the leader to perform the local commit now. -/
def consistencyMet (n : LeaderNode) : Bool :=
  match n.commitConsistency with
  | ConsistencyLevel.ASYNC => true
  | ConsistencyLevel.ONE => n.approvals + n.permaApprovals ≥ 1
  | ConsistencyLevel.QUORUM => n.quorumApproved

/-- Events of the leader-side commit protocol (spec 4.F leader side, 7). -/
inductive Event where
  /-- startCommit(consistency): begin committing a transaction
  (SQLiteNode.h line 246, spec 4.F step 1). -/
  | startCommit (c : ConsistencyLevel)
  /-- An APPROVE_TRANSACTION arrives from a non-permafollower follower. -/
  | approveTransaction
  /-- An APPROVE_TRANSACTION arrives from a permafollower. -/
  | approveFromPermafollower
  /-- The consistency requirement is met: perform the local commit
  (spec 4.F steps 5-7). -/
  | beginLocalCommit
  /-- The local commit completes: broadcast COMMIT_TRANSACTION, SUCCESS. -/
  | finishCommit
  /-- A DENY_TRANSACTION arrives, or the commit times out before the required
  approvals (spec 4.F step 8, 7: node stays LEADING). -/
  | denyOrTimeout
  /-- The leader loses its SUBSCRIBED majority mid-commit (spec 7: the
  in-flight commit is failed and the node goes to STANDINGDOWN). -/
  | loseMajority
deriving DecidableEq, Repr

/-- One protocol event; none when the event's guard does not hold. -/
def step (n : LeaderNode) : Event → Option LeaderNode
  | Event.startCommit c =>
      if n.state = State.LEADING ∧ commitInProgress n.commitState = false then
        some { n with
          commitState := CommitState.WAITING,
          commitConsistency := c,
          approvals := 0,
          permaApprovals := 0,
          sent := BroadcastMsg.BEGIN_TRANSACTION :: n.sent }
      else none
  | Event.approveTransaction =>
      if commitInProgress n.commitState = true ∧ n.approvals < n.nonPermaPeerCount then
        some { n with approvals := n.approvals + 1 }
      else none
  | Event.approveFromPermafollower =>
      if commitInProgress n.commitState = true then
        some { n with permaApprovals := n.permaApprovals + 1 }
      else none
  | Event.beginLocalCommit =>
      if n.commitState = CommitState.WAITING ∧ n.consistencyMet = true then
        some { n with commitState := CommitState.COMMITTING }
      else none
  | Event.finishCommit =>
      if n.commitState = CommitState.COMMITTING then
        some { n with
          commitState := CommitState.SUCCESS,
          sent := BroadcastMsg.COMMIT_TRANSACTION :: n.sent }
      else none
  | Event.denyOrTimeout =>
      if commitInProgress n.commitState = true then
        some { n with
          commitState := CommitState.FAILED,
          sent := BroadcastMsg.ROLLBACK_TRANSACTION :: n.sent }
      else none
  | Event.loseMajority =>
      if commitInProgress n.commitState = true then
        some { n with
          commitState := CommitState.FAILED,
          state := State.STANDINGDOWN,
          sent := BroadcastMsg.ROLLBACK_TRANSACTION :: n.sent }
      else none

/-- Run a sequence of protocol events, first element first. -/
def run (n : LeaderNode) : List Event → Option LeaderNode
  | [] => some n
  | ev :: evs => match n.step ev with
    | some m => run m evs
    | none => none

/-- Quorum invariant: once a QUORUM transaction has entered its local commit
(COMMITTING) or succeeded, the quorum rule is satisfied. -/
def QuorumInv (n : LeaderNode) : Prop :=
  n.commitConsistency = ConsistencyLevel.QUORUM →
    (n.commitState = CommitState.COMMITTING ∨ n.commitState = CommitState.SUCCESS) →
    n.quorumApproved = true

end LeaderNode

/-- Each protocol event preserves the quorum invariant. -/
theorem LeaderNode.step_preserves_quorumInv
    (n m : LeaderNode) (ev : LeaderNode.Event)
    (hinv : n.QuorumInv) (hstep : n.step ev = some m) : m.QuorumInv := by
  cases ev with
  | startCommit c =>
      simp only [LeaderNode.step] at hstep
      split at hstep
      case isFalse => cases hstep
      case isTrue hguard =>
        cases hstep
        intro hc hst
        rcases hst with h | h <;> simp at h
  | approveTransaction =>
      simp only [LeaderNode.step] at hstep
      split at hstep
      case isFalse => cases hstep
      case isTrue hguard =>
        cases hstep
        intro hc hst
        have h := hinv hc hst
        simp only [LeaderNode.quorumApproved, ge_iff_le, decide_eq_true_eq] at h ⊢
        omega
  | approveFromPermafollower =>
      simp only [LeaderNode.step] at hstep
      split at hstep
      case isFalse => cases hstep
      case isTrue hguard =>
        cases hstep
        intro hc hst
        exact hinv hc hst
  | beginLocalCommit =>
      simp only [LeaderNode.step] at hstep
      split at hstep
      case isFalse => cases hstep
      case isTrue hguard =>
        cases hstep
        intro hc hst
        have hc' : n.commitConsistency = ConsistencyLevel.QUORUM := hc
        have hcm := hguard.2
        simp only [LeaderNode.consistencyMet, hc'] at hcm
        exact hcm
  | finishCommit =>
      simp only [LeaderNode.step] at hstep
      split at hstep
      case isFalse => cases hstep
      case isTrue hguard =>
        cases hstep
        intro hc hst
        exact hinv hc (Or.inl hguard)
  | denyOrTimeout =>
      simp only [LeaderNode.step] at hstep
      split at hstep
      case isFalse => cases hstep
      case isTrue hguard =>
        cases hstep
        intro hc hst
        rcases hst with h | h <;> simp at h
  | loseMajority =>
      simp only [LeaderNode.step] at hstep
      split at hstep
      case isFalse => cases hstep
      case isTrue hguard =>
        cases hstep
        intro hc hst
        rcases hst with h | h <;> simp at h

/-- The quorum invariant holds along every protocol run. -/
theorem LeaderNode.run_quorumInv
    (evs : List LeaderNode.Event) (n s : LeaderNode)
    (hinv : n.QuorumInv) (hrun : n.run evs = some s) : s.QuorumInv := by
  induction evs generalizing n with
  | nil =>
      simp only [LeaderNode.run, Option.some.injEq] at hrun
      exact hrun ▸ hinv
  | cons ev evs ih =>
      simp only [LeaderNode.run] at hrun
      cases hst : n.step ev with
      | none => rw [hst] at hrun; cases hrun
      | some m =>
          rw [hst] at hrun
          exact ih m (LeaderNode.step_preserves_quorumInv n m ev hinv hst) hrun

/-- C2: a commit started with consistency QUORUM reaches SUCCESS on the leader
only if the APPROVE_TRANSACTION responses from non-permafollower followers,
counting the leader itself as an implicit approval, number at least
the ceiling of (N+1)/2, where N is the number of non-permafollower peers. -/
theorem quorum_success_requires_majority
    (n : LeaderNode) (evs : List LeaderNode.Event) (s : LeaderNode)
    (hinit : n.commitState = CommitState.UNINITIALIZED)
    (hrun : n.run evs = some s)
    (hcons : s.commitConsistency = ConsistencyLevel.QUORUM)
    (hsucc : commitSucceeded s.commitState = true) :
    s.approvals + 1 ≥ (s.nonPermaPeerCount + 2) / 2 := by
  have hinv0 : n.QuorumInv := by
    intro _ hst
    rcases hst with h | h <;> rw [hinit] at h <;> cases h
  have hsucc' : s.commitState = CommitState.SUCCESS := by
    simpa [commitSucceeded] using hsucc
  have h := LeaderNode.run_quorumInv evs n s hinv0 hrun hcons (Or.inr hsucc')
  simpa [LeaderNode.quorumApproved] using h

/-- Witness for C2 at a concrete run: a leader with two non-permafollower
peers starts a QUORUM commit, receives one APPROVE (1 + self = 2 = the
ceiling of 3/2 rounded up over 3 participants), commits, and succeeds. -/
theorem quorum_success_requires_majority_witness :
    (⟨State.LEADING, CommitState.UNINITIALIZED, ConsistencyLevel.ASYNC, 0, 0, 2,
        []⟩ : LeaderNode).commitState = CommitState.UNINITIALIZED ∧
    (⟨State.LEADING, CommitState.UNINITIALIZED, ConsistencyLevel.ASYNC, 0, 0, 2,
        []⟩ : LeaderNode).run
      [LeaderNode.Event.startCommit ConsistencyLevel.QUORUM,
       LeaderNode.Event.approveTransaction,
       LeaderNode.Event.beginLocalCommit,
       LeaderNode.Event.finishCommit] =
      some ⟨State.LEADING, CommitState.SUCCESS, ConsistencyLevel.QUORUM, 1, 0, 2,
        [BroadcastMsg.COMMIT_TRANSACTION, BroadcastMsg.BEGIN_TRANSACTION]⟩ ∧
    (1 + 1 ≥ (2 + 2) / 2) := by
  have h : (⟨State.LEADING, CommitState.UNINITIALIZED, ConsistencyLevel.ASYNC, 0, 0, 2,
        []⟩ : LeaderNode).run
      [LeaderNode.Event.startCommit ConsistencyLevel.QUORUM,
       LeaderNode.Event.approveTransaction,
       LeaderNode.Event.beginLocalCommit,
       LeaderNode.Event.finishCommit] =
      some ⟨State.LEADING, CommitState.SUCCESS, ConsistencyLevel.QUORUM, 1, 0, 2,
        [BroadcastMsg.COMMIT_TRANSACTION, BroadcastMsg.BEGIN_TRANSACTION]⟩ := by decide
  exact ⟨rfl, h, quorum_success_requires_majority _ _ _ rfl h rfl rfl⟩

/-- No protocol event resets the commit state to UNINITIALIZED. -/
theorem LeaderNode.step_commitState_ne_uninit
    (n m : LeaderNode) (ev : LeaderNode.Event)
    (hne : n.commitState ≠ CommitState.UNINITIALIZED)
    (hstep : n.step ev = some m) : m.commitState ≠ CommitState.UNINITIALIZED := by
  cases ev <;> simp only [LeaderNode.step] at hstep <;> split at hstep <;>
    cases hstep <;> simp_all

/-- Along any run, once the commit state has left UNINITIALIZED it never
returns there. -/
theorem LeaderNode.run_commitState_ne_uninit
    (evs : List LeaderNode.Event) (n s : LeaderNode)
    (hne : n.commitState ≠ CommitState.UNINITIALIZED)
    (hrun : n.run evs = some s) : s.commitState ≠ CommitState.UNINITIALIZED := by
  induction evs generalizing n with
  | nil =>
      simp only [LeaderNode.run, Option.some.injEq] at hrun
      exact hrun ▸ hne
  | cons ev evs ih =>
      simp only [LeaderNode.run] at hrun
      cases hst : n.step ev with
      | none => rw [hst] at hrun; cases hrun
      | some m =>
          rw [hst] at hrun
          exact ih m (LeaderNode.step_commitState_ne_uninit n m ev hne hst) hrun

/-- C4: when the node is LEADING and no commit is in progress, startCommit(c)
sets the commit state to WAITING and records the requested consistency c;
immediately afterwards commitInProgress() returns true, and along every
subsequent protocol run it stays true until the commit state is SUCCESS or
FAILED. -/
theorem startCommit_begins_commit (n : LeaderNode) (c : ConsistencyLevel)
    (hlead : n.state = State.LEADING)
    (hnoip : commitInProgress n.commitState = false) :
    ∃ m, n.step (LeaderNode.Event.startCommit c) = some m ∧
      m.commitState = CommitState.WAITING ∧
      m.commitConsistency = c ∧
      commitInProgress m.commitState = true ∧
      ∀ evs s, m.run evs = some s →
        commitInProgress s.commitState = true ∨
          s.commitState = CommitState.SUCCESS ∨ s.commitState = CommitState.FAILED := by
  refine ⟨{ n with
      commitState := CommitState.WAITING,
      commitConsistency := c,
      approvals := 0,
      permaApprovals := 0,
      sent := BroadcastMsg.BEGIN_TRANSACTION :: n.sent }, ?_, rfl, rfl, rfl, ?_⟩
  · simp [LeaderNode.step, hlead, hnoip]
  · intro evs s hrun
    have hne : s.commitState ≠ CommitState.UNINITIALIZED :=
      LeaderNode.run_commitState_ne_uninit evs _ s (by simp) hrun
    cases hcs : s.commitState with
    | UNINITIALIZED => exact absurd hcs hne
    | WAITING => exact Or.inl rfl
    | COMMITTING => exact Or.inl rfl
    | SUCCESS => exact Or.inr (Or.inl rfl)
    | FAILED => exact Or.inr (Or.inr rfl)

/-- Witness for C4 at a concrete node: a LEADING node with no commit in
progress starts a QUORUM commit. -/
theorem startCommit_begins_commit_witness :
    (⟨State.LEADING, CommitState.UNINITIALIZED, ConsistencyLevel.ASYNC, 0, 0, 2,
        []⟩ : LeaderNode).state = State.LEADING ∧
    commitInProgress (⟨State.LEADING, CommitState.UNINITIALIZED,
        ConsistencyLevel.ASYNC, 0, 0, 2, []⟩ : LeaderNode).commitState = false ∧
    (∃ m, (⟨State.LEADING, CommitState.UNINITIALIZED, ConsistencyLevel.ASYNC, 0, 0, 2,
          []⟩ : LeaderNode).step
            (LeaderNode.Event.startCommit ConsistencyLevel.QUORUM) = some m ∧
      m.commitState = CommitState.WAITING ∧
      m.commitConsistency = ConsistencyLevel.QUORUM ∧
      commitInProgress m.commitState = true ∧
      ∀ evs s, m.run evs = some s →
        commitInProgress s.commitState = true ∨
          s.commitState = CommitState.SUCCESS ∨ s.commitState = CommitState.FAILED) :=
  ⟨rfl, by decide,
    startCommit_begins_commit _ ConsistencyLevel.QUORUM rfl (by decide)⟩

/-- C6 counterexample: a LEADING node with an in-flight QUORUM commit loses
its SUBSCRIBED majority; the commit fails with a ROLLBACK_TRANSACTION
broadcast, but the node does not remain LEADING: it moves to STANDINGDOWN
(spec 7: loss of majority SUBSCRIBED followers while LEADING fails the
in-flight commit and sends the node to STANDINGDOWN). -/
theorem loseMajority_leaves_leading_counterexample :
    (LeaderNode.step
        ⟨State.LEADING, CommitState.WAITING, ConsistencyLevel.QUORUM, 0, 0, 2,
          [BroadcastMsg.BEGIN_TRANSACTION]⟩
        LeaderNode.Event.loseMajority) =
      some ⟨State.STANDINGDOWN, CommitState.FAILED, ConsistencyLevel.QUORUM, 0, 0, 2,
        [BroadcastMsg.ROLLBACK_TRANSACTION, BroadcastMsg.BEGIN_TRANSACTION]⟩ ∧
    State.STANDINGDOWN ≠ State.LEADING := by
  exact ⟨by decide, by decide⟩

/-- C6 (amended): when a leader's in-flight commit receives a DENY or times
out, the leader fails the commit (FAILED), broadcasts ROLLBACK_TRANSACTION,
and its node state is unchanged (it remains LEADING); when it loses its
SUBSCRIBED majority mid-commit, the commit likewise fails with a
ROLLBACK_TRANSACTION broadcast but the node transitions to STANDINGDOWN. -/
theorem commit_failure_handling (n : LeaderNode)
    (hip : commitInProgress n.commitState = true) :
    (∃ m, n.step LeaderNode.Event.denyOrTimeout = some m ∧
      m.commitState = CommitState.FAILED ∧
      BroadcastMsg.ROLLBACK_TRANSACTION ∈ m.sent ∧ m.state = n.state) ∧
    (∃ m, n.step LeaderNode.Event.loseMajority = some m ∧
      m.commitState = CommitState.FAILED ∧
      BroadcastMsg.ROLLBACK_TRANSACTION ∈ m.sent ∧ m.state = State.STANDINGDOWN) := by
  constructor
  · refine ⟨{ n with
        commitState := CommitState.FAILED,
        sent := BroadcastMsg.ROLLBACK_TRANSACTION :: n.sent }, ?_, rfl, ?_, rfl⟩
    · simp [LeaderNode.step, hip]
    · exact List.mem_cons_self _ _
  · refine ⟨{ n with
        commitState := CommitState.FAILED,
        state := State.STANDINGDOWN,
        sent := BroadcastMsg.ROLLBACK_TRANSACTION :: n.sent }, ?_, rfl, ?_, rfl⟩
    · simp [LeaderNode.step, hip]
    · exact List.mem_cons_self _ _

/-- Witness for the amended C6 at a concrete node with an in-flight commit. -/
theorem commit_failure_handling_witness :
    commitInProgress (⟨State.LEADING, CommitState.WAITING, ConsistencyLevel.QUORUM,
        0, 0, 2, [BroadcastMsg.BEGIN_TRANSACTION]⟩ : LeaderNode).commitState = true ∧
    ((∃ m, (⟨State.LEADING, CommitState.WAITING, ConsistencyLevel.QUORUM,
          0, 0, 2, [BroadcastMsg.BEGIN_TRANSACTION]⟩ : LeaderNode).step
            LeaderNode.Event.denyOrTimeout = some m ∧
        m.commitState = CommitState.FAILED ∧
        BroadcastMsg.ROLLBACK_TRANSACTION ∈ m.sent ∧
        m.state = (⟨State.LEADING, CommitState.WAITING, ConsistencyLevel.QUORUM,
          0, 0, 2, [BroadcastMsg.BEGIN_TRANSACTION]⟩ : LeaderNode).state) ∧
      (∃ m, (⟨State.LEADING, CommitState.WAITING, ConsistencyLevel.QUORUM,
          0, 0, 2, [BroadcastMsg.BEGIN_TRANSACTION]⟩ : LeaderNode).step
            LeaderNode.Event.loseMajority = some m ∧
        m.commitState = CommitState.FAILED ∧
        BroadcastMsg.ROLLBACK_TRANSACTION ∈ m.sent ∧
        m.state = State.STANDINGDOWN)) :=
  ⟨by decide, commit_failure_handling _ (by decide)⟩

namespace SQLiteNode

/-- Possible responses from a peer (enum class Response in SQLiteNode.h,
lines 77-81). -/
inductive Response where
  | NONE
  | APPROVE
  | DENY
deriving DecidableEq, Repr

/-- The mutable per-peer attributes relevant to the commit pair (SQLiteNode.h
lines 94-148): the commitCount/hash pair guarded by the per-peer recursive
mutex, and the independently written atomic session fields. -/
structure Peer where
  /-- Commit count of the peer; synchronized with the hash (line 94). -/
  commitCount : Nat
  /-- The hash corresponding to commitCount (line 139, private). -/
  hash : String
  loggedIn : Bool
  subscribed : Bool
  standupResponse : Response
  transactionResponse : Response
deriving DecidableEq, Repr

/-- Modelled from the spec: Peer::setCommit is declared at SQLiteNode.h line
117 ("Atomically set commit and hash") with no body under src/.  Under the
peer's recursive lock it replaces the pair together. -/
def Peer.setCommit (p : Peer) (count : Nat) (hashString : String) : Peer :=
  { p with commitCount := count, hash := hashString }

/-- Modelled from the spec: Peer::getCommit is declared at SQLiteNode.h line
120 ("Atomically get commit and hash") with no body under src/.  Under the
peer's recursive lock it reads the pair together. -/
def Peer.getCommit (p : Peer) : Nat × String :=
  (p.commitCount, p.hash)

/-- Modelled from the spec: Peer::reset is declared at SQLiteNode.h line 129
("Reset a peer, as if disconnected and starting the connection over") with no
body under src/.  Spec 4.B step 4: disconnection clears loggedIn and the
per-session atomics; starting over also clears the commit pair. -/
def Peer.reset (p : Peer) : Peer :=
  { p with
    commitCount := 0,
    hash := "",
    loggedIn := false,
    subscribed := false,
    standupResponse := Response.NONE,
    transactionResponse := Response.NONE }

/-- Mutating operations on a peer, serialized by the per-peer recursive lock
and the atomicity of the remaining fields. -/
inductive PeerOp where
  | setCommit (count : Nat) (hashString : String)
  | reset
  | setLoggedIn (b : Bool)
  | setSubscribed (b : Bool)
  | setStandupResponse (r : Response)
  | setTransactionResponse (r : Response)
deriving DecidableEq, Repr

/-- Apply one peer operation. -/
def Peer.applyOp (p : Peer) : PeerOp → Peer
  | PeerOp.setCommit c h => p.setCommit c h
  | PeerOp.reset => p.reset
  | PeerOp.setLoggedIn b => { p with loggedIn := b }
  | PeerOp.setSubscribed b => { p with subscribed := b }
  | PeerOp.setStandupResponse r => { p with standupResponse := r }
  | PeerOp.setTransactionResponse r => { p with transactionResponse := r }

/-- Apply a sequence of peer operations, first element first. -/
def Peer.applyOps (p : Peer) : List PeerOp → Peer
  | [] => p
  | op :: ops => (p.applyOp op).applyOps ops

/-- Whether an operation writes the commitCount/hash pair. -/
def PeerOp.writesCommitPair : PeerOp → Bool
  | PeerOp.setCommit _ _ => true
  | PeerOp.reset => true
  | _ => false

end SQLiteNode

/-- C7: the pair (commitCount, commitHash) is updated and read atomically
together: after setCommit(c, h), and across any serialized sequence of peer
operations that contains no later setCommit and no reset, getCommit returns
exactly the pair (c, h) — never a count from one update paired with a hash
from another. -/
theorem setCommit_getCommit_atomic_pair
    (p : Peer) (c : Nat) (h : String) (ops : List PeerOp)
    (hops : ∀ op ∈ ops, op.writesCommitPair = false) :
    ((p.setCommit c h).applyOps ops).getCommit = (c, h) := by
  induction ops generalizing p with
  | nil => rfl
  | cons op ops ih =>
      have hop := hops op (List.mem_cons_self _ _)
      have hrest : ∀ o ∈ ops, o.writesCommitPair = false :=
        fun o ho => hops o (List.mem_cons_of_mem _ ho)
      cases op with
      | setCommit c' h' => cases hop
      | reset => cases hop
      | setLoggedIn b => exact ih { p with loggedIn := b } hrest
      | setSubscribed b => exact ih { p with subscribed := b } hrest
      | setStandupResponse r => exact ih { p with standupResponse := r } hrest
      | setTransactionResponse r => exact ih { p with transactionResponse := r } hrest

/-- Witness for C7 at a concrete peer: after setCommit(7, "abc") and a series
of session-field writes, getCommit still returns (7, "abc"). -/
theorem setCommit_getCommit_atomic_pair_witness :
    (∀ op ∈ [PeerOp.setLoggedIn true, PeerOp.setSubscribed true,
        PeerOp.setTransactionResponse Response.APPROVE],
      op.writesCommitPair = false) ∧
    (((⟨0, "", false, false, Response.NONE, Response.NONE⟩ : Peer).setCommit
        7 "abc").applyOps
      [PeerOp.setLoggedIn true, PeerOp.setSubscribed true,
       PeerOp.setTransactionResponse Response.APPROVE]).getCommit = (7, "abc") :=
  ⟨by decide, setCommit_getCommit_atomic_pair _ 7 "abc" _ (by decide)⟩
